import Mathlib

/-!
Verification development for the FaaSr workflow deployment scripts.

This file gives a shallow embedding of the deployment orchestrator found in
src/scripts/register_workflow.py (credential resolution, the per-action
create-or-update reconciliation against AWS Lambda and OpenWhisk, platform
routing in main) and of the credential setup in
src/scripts/migration_adapter.py, together with theorems settling the
specification claims about those components.

Python dictionaries with a fixed shape are embedded as structures whose
fields are Option-typed (a field holds none when the corresponding key is
absent from the dictionary).  The process environment is a lookup function
String to Option String, matching os.getenv.  Exits via sys.exit are
embedded as Except results carrying the exit code.  Platform interactions
of the AWS deployment path are embedded as an explicit call trace so that
ordering and branch claims can be stated.
-/

namespace FaaSr

/-- Environment variable lookup, modelling os.getenv: none when the
variable is unset. -/
abbrev Env := String → Option String

/-- Python truthiness of a possibly absent string value: None and the empty
string are falsy, every other string is truthy. -/
def truthyOpt (o : Option String) : Prop := o.getD "" ≠ ""

instance (o : Option String) : Decidable (truthyOpt o) := by
  unfold truthyOpt; infer_instance

/-- One entry of the ComputeServers map of a workflow definition.  Fields
are the dictionary keys read by register_workflow.py; APIKey embeds the
dictionary key written API.key in the source. -/
@[ext]
structure ComputeServer where
  FaaSType : Option String := none
  AccessKey : Option String := none
  SecretKey : Option String := none
  Token : Option String := none
  APIKey : Option String := none
  Namespace : Option String := none
  Region : Option String := none
  Endpoint : Option String := none
  SSL : Option String := none
  MaxMemory : Option Int := none
  MaxRuntime : Option Int := none
deriving DecidableEq

/-- One entry of the DataStores map of a workflow definition. -/
@[ext]
structure DataStore where
  Endpoint : Option String := none
  Region : Option String := none
  AccessKey : Option String := none
  SecretKey : Option String := none
  Bucket : Option String := none
deriving DecidableEq

/-- One entry of the ActionList map of a workflow definition. -/
@[ext]
structure ActionData where
  FunctionName : String
  FaaSServer : String
  MaxMemory : Option Int := none
  MaxRuntime : Option Int := none
deriving DecidableEq

/-- The workflow definition document.  The maps are association lists in
insertion order, matching Python dict iteration order.  extra lists the
names of any further top-level keys of the JSON document (for instance
FunctionInvoke, or the _workflow_file bookkeeping key added by main). -/
@[ext]
structure WorkflowData where
  WorkflowName : Option String := none
  ComputeServers : List (String × ComputeServer) := []
  DataStores : List (String × DataStore) := []
  ActionList : List (String × ActionData) := []
  ActionContainers : List (String × String) := []
  extra : List String := []
deriving DecidableEq

/-! Platform type groups, as the lowercase membership tests used by
register_workflow.py (deploy filters and the dispatch in main). -/

/-- ASCII lowercase of a string, embedding the Python str.lower calls of
the scripts (character-wise lowercase; written out so that it reduces in
the kernel, unlike String.toLower whose recursion is well-founded). -/
def str_lower (s : String) : String := String.mk (s.data.map Char.toLower)

/-- FaaSType spellings routed to AWS Lambda. -/
def awsTypes : List String := ["lambda", "aws_lambda", "aws"]

/-- FaaSType spellings routed to GitHub Actions. -/
def githubTypes : List String := ["githubactions", "github_actions", "github"]

/-- FaaSType spellings routed to OpenWhisk. -/
def owTypes : List String := ["openwhisk", "open_whisk", "ow"]

/-- FaaSType spellings routed to GCP Cloud Functions. -/
def gcpTypes : List String := ["cloudfunctions", "cloud_functions", "gcp", "gcf", "googlecloud"]

/-! Credential resolution: create_secret_payload in register_workflow.py
(lines 280 to 359). -/

/-- The credentials dictionary assembled at the start of
create_secret_payload (lines 295 to 305).  Field names are the dictionary
keys of the source.  Entries read with os.getenv without a default may be
absent (Option), entries read with a default of the empty string are plain
strings. -/
structure Credentials where
  My_GitHub_Account_TOKEN : String
  My_Minio_Bucket_ACCESS_KEY : Option String
  My_Minio_Bucket_SECRET_KEY : Option String
  My_OW_Account_API_KEY : String
  My_Lambda_Account_ACCESS_KEY : String
  My_Lambda_Account_SECRET_KEY : String
  My_GCP_Account_PROJECT_ID : String
  My_GCP_Account_SERVICE_ACCOUNT_KEY : String
  My_SLURM_Account_TOKEN : String
deriving DecidableEq

/-- Guarded placeholder substitution, the repeated pattern of
create_secret_payload: assign the credential to the field only when the
field currently equals the given placeholder string and the credential is
truthy (nonempty); otherwise the field is left unchanged. -/
def subst_placeholder (placeholder cred_value : String) (v : Option String) : Option String :=
  if v = some placeholder ∧ cred_value ≠ "" then some cred_value else v

/-- Variant of the guarded substitution accepting either of two
placeholder spellings, used for the GCP SecretKey field (line 344). -/
def subst_placeholder2 (p1 p2 cred_value : String) (v : Option String) : Option String :=
  if (v = some p1 ∨ v = some p2) ∧ cred_value ≠ "" then some cred_value else v

/-- Lambda branch of the ComputeServers substitution (lines 321 to 328). -/
def resolve_lambda_server (cred : Credentials) (server_key : String) (cfg : ComputeServer) : ComputeServer :=
  { cfg with
    AccessKey := subst_placeholder (server_key ++ "_ACCESS_KEY")
      cred.My_Lambda_Account_ACCESS_KEY cfg.AccessKey
    SecretKey := subst_placeholder (server_key ++ "_SECRET_KEY")
      cred.My_Lambda_Account_SECRET_KEY cfg.SecretKey }

/-- GitHubActions branch of the ComputeServers substitution (lines 329 to 333). -/
def resolve_github_server (cred : Credentials) (server_key : String) (cfg : ComputeServer) : ComputeServer :=
  { cfg with
    Token := subst_placeholder (server_key ++ "_TOKEN")
      cred.My_GitHub_Account_TOKEN cfg.Token }

/-- OpenWhisk branch of the ComputeServers substitution (lines 334 to 338). -/
def resolve_ow_server (cred : Credentials) (server_key : String) (cfg : ComputeServer) : ComputeServer :=
  { cfg with
    APIKey := subst_placeholder (server_key ++ "_API_KEY")
      cred.My_OW_Account_API_KEY cfg.APIKey }

/-- CloudFunctions and GoogleCloud branch of the ComputeServers
substitution (lines 339 to 346). -/
def resolve_gcp_server (cred : Credentials) (server_key : String) (cfg : ComputeServer) : ComputeServer :=
  { cfg with
    Namespace := subst_placeholder (server_key ++ "_PROJECT_ID")
      cred.My_GCP_Account_PROJECT_ID cfg.Namespace
    SecretKey := subst_placeholder2 (server_key ++ "_SECRET_KEY") "GCP_SECRET_KEY"
      cred.My_GCP_Account_SERVICE_ACCOUNT_KEY cfg.SecretKey }

/-- Placeholder substitution for one compute server, dispatching on the
exact FaaSType tag as in create_secret_payload lines 316 to 346. -/
def resolveComputeServer (cred : Credentials) (server_key : String) (cfg : ComputeServer) : ComputeServer :=
  let faas_type := cfg.FaaSType.getD ""
  if faas_type = "Lambda" then resolve_lambda_server cred server_key cfg
  else if faas_type = "GitHubActions" then resolve_github_server cred server_key cfg
  else if faas_type = "OpenWhisk" then resolve_ow_server cred server_key cfg
  else if faas_type = "CloudFunctions" ∨ faas_type = "GoogleCloud" then
    resolve_gcp_server cred server_key cfg
  else cfg

/-- Placeholder substitution for one data store, from create_secret_payload
lines 349 to 357: only the store named My_Minio_Bucket is substituted, and
only when the field currently equals its conventional placeholder. -/
def resolveDataStore (cred : Credentials) (store_key : String) (cfg : DataStore) : DataStore :=
  { cfg with
    AccessKey :=
      if cfg.AccessKey = some (store_key ++ "_ACCESS_KEY") ∧ store_key = "My_Minio_Bucket" ∧
          truthyOpt cred.My_Minio_Bucket_ACCESS_KEY then
        cred.My_Minio_Bucket_ACCESS_KEY
      else cfg.AccessKey
    SecretKey :=
      if cfg.SecretKey = some (store_key ++ "_SECRET_KEY") ∧ store_key = "My_Minio_Bucket" ∧
          truthyOpt cred.My_Minio_Bucket_SECRET_KEY then
        cred.My_Minio_Bucket_SECRET_KEY
      else cfg.SecretKey }

/-- Placeholder substitution over the whole ComputeServers map. -/
def resolveComputeServers (cred : Credentials) (servers : List (String × ComputeServer)) :
    List (String × ComputeServer) :=
  servers.map (fun kv => (kv.1, resolveComputeServer cred kv.1 kv.2))

/-- Placeholder substitution over the whole DataStores map. -/
def resolveDataStores (cred : Credentials) (stores : List (String × DataStore)) :
    List (String × DataStore) :=
  stores.map (fun kv => (kv.1, resolveDataStore cred kv.1 kv.2))

/-- Placeholder substitution over a workflow definition: the credential
resolver of create_secret_payload restricted to its effect on the workflow
structure (ComputeServers and DataStores). -/
def resolve_workflow_credentials (cred : Credentials) (wf : WorkflowData) : WorkflowData :=
  { wf with
    ComputeServers := resolveComputeServers cred wf.ComputeServers
    DataStores := resolveDataStores cred wf.DataStores }

/-! Credential setup of migration_adapter.py, FaaSrPayloadAdapter._setup_credentials
(lines 47 to 82): unconditional overwrite with the environment value when
that value is truthy, keyed on the lowercase FaaSType group. -/

/-- Adapter credential substitution for one compute server
(migration_adapter.py lines 58 to 73). -/
def adapter_resolve_server (env : Env) (cfg : ComputeServer) : ComputeServer :=
  let faas_type := str_lower (cfg.FaaSType.getD "")
  if faas_type ∈ awsTypes then
    { cfg with
      AccessKey := if truthyOpt (env "AWS_ACCESS_KEY_ID") then
          env "AWS_ACCESS_KEY_ID" else cfg.AccessKey
      SecretKey := if truthyOpt (env "AWS_SECRET_ACCESS_KEY") then
          env "AWS_SECRET_ACCESS_KEY" else cfg.SecretKey }
  else if faas_type ∈ githubTypes then
    { cfg with
      Token := if truthyOpt (env "GITHUB_TOKEN") then env "GITHUB_TOKEN" else cfg.Token }
  else if faas_type ∈ owTypes then
    { cfg with
      APIKey := if truthyOpt (env "OW_API_KEY") then env "OW_API_KEY" else cfg.APIKey }
  else cfg

/-- Adapter credential substitution for one data store
(migration_adapter.py lines 75 to 82). -/
def adapter_resolve_store (env : Env) (store_key : String) (cfg : DataStore) : DataStore :=
  if store_key = "My_Minio_Bucket" then
    { cfg with
      AccessKey := if truthyOpt (env "MINIO_ACCESS_KEY") then
          env "MINIO_ACCESS_KEY" else cfg.AccessKey
      SecretKey := if truthyOpt (env "MINIO_SECRET_KEY") then
          env "MINIO_SECRET_KEY" else cfg.SecretKey }
  else cfg

/-- FaaSrPayloadAdapter._setup_credentials over the whole workflow data. -/
def adapter_setup_credentials (env : Env) (wf : WorkflowData) : WorkflowData :=
  { wf with
    ComputeServers := wf.ComputeServers.map (fun kv => (kv.1, adapter_resolve_server env kv.2))
    DataStores := wf.DataStores.map (fun kv => (kv.1, adapter_resolve_store env kv.1 kv.2)) }

/-! Lemmas about the substitution primitives. -/

theorem subst_placeholder_idem (p c : String) (v : Option String) :
    subst_placeholder p c (subst_placeholder p c v) = subst_placeholder p c v := by
  unfold subst_placeholder
  split_ifs <;> simp_all

theorem subst_placeholder2_idem (p1 p2 c : String) (v : Option String) :
    subst_placeholder2 p1 p2 c (subst_placeholder2 p1 p2 c v) = subst_placeholder2 p1 p2 c v := by
  unfold subst_placeholder2
  split_ifs <;> simp_all

theorem ite_assign_idem {α : Type} (P : α → Prop) [DecidablePred P] (w v : α) :
    (if P (if P v then w else v) then w else if P v then w else v) = if P v then w else v := by
  by_cases h : P v <;> simp [h]

@[simp] theorem resolve_lambda_server_FaaSType (cred : Credentials) (k : String) (cfg : ComputeServer) :
    (resolve_lambda_server cred k cfg).FaaSType = cfg.FaaSType := rfl

@[simp] theorem resolve_github_server_FaaSType (cred : Credentials) (k : String) (cfg : ComputeServer) :
    (resolve_github_server cred k cfg).FaaSType = cfg.FaaSType := rfl

@[simp] theorem resolve_ow_server_FaaSType (cred : Credentials) (k : String) (cfg : ComputeServer) :
    (resolve_ow_server cred k cfg).FaaSType = cfg.FaaSType := rfl

@[simp] theorem resolve_gcp_server_FaaSType (cred : Credentials) (k : String) (cfg : ComputeServer) :
    (resolve_gcp_server cred k cfg).FaaSType = cfg.FaaSType := rfl

theorem resolve_lambda_server_idem (cred : Credentials) (k : String) (cfg : ComputeServer) :
    resolve_lambda_server cred k (resolve_lambda_server cred k cfg) =
      resolve_lambda_server cred k cfg := by
  cases cfg
  simp [resolve_lambda_server, subst_placeholder_idem]

theorem resolve_github_server_idem (cred : Credentials) (k : String) (cfg : ComputeServer) :
    resolve_github_server cred k (resolve_github_server cred k cfg) =
      resolve_github_server cred k cfg := by
  cases cfg
  simp [resolve_github_server, subst_placeholder_idem]

theorem resolve_ow_server_idem (cred : Credentials) (k : String) (cfg : ComputeServer) :
    resolve_ow_server cred k (resolve_ow_server cred k cfg) =
      resolve_ow_server cred k cfg := by
  cases cfg
  simp [resolve_ow_server, subst_placeholder_idem]

theorem resolve_gcp_server_idem (cred : Credentials) (k : String) (cfg : ComputeServer) :
    resolve_gcp_server cred k (resolve_gcp_server cred k cfg) =
      resolve_gcp_server cred k cfg := by
  cases cfg
  simp [resolve_gcp_server, subst_placeholder_idem, subst_placeholder2_idem]

theorem resolveComputeServer_idem (cred : Credentials) (k : String) (cfg : ComputeServer) :
    resolveComputeServer cred k (resolveComputeServer cred k cfg) =
      resolveComputeServer cred k cfg := by
  by_cases h1 : cfg.FaaSType.getD "" = "Lambda"
  · simp [resolveComputeServer, h1, resolve_lambda_server_idem]
  · by_cases h2 : cfg.FaaSType.getD "" = "GitHubActions"
    · simp [resolveComputeServer, h1, h2, resolve_github_server_idem]
    · by_cases h3 : cfg.FaaSType.getD "" = "OpenWhisk"
      · simp [resolveComputeServer, h1, h2, h3, resolve_ow_server_idem]
      · by_cases h4 : cfg.FaaSType.getD "" = "CloudFunctions" ∨ cfg.FaaSType.getD "" = "GoogleCloud"
        · simp [resolveComputeServer, h1, h2, h3, h4, resolve_gcp_server_idem]
        · simp [resolveComputeServer, h1, h2, h3, h4]

theorem resolveDataStore_idem (cred : Credentials) (k : String) (cfg : DataStore) :
    resolveDataStore cred k (resolveDataStore cred k cfg) = resolveDataStore cred k cfg := by
  cases cfg
  simp only [resolveDataStore]
  split_ifs <;> simp_all

theorem resolveComputeServers_idem (cred : Credentials) (l : List (String × ComputeServer)) :
    resolveComputeServers cred (resolveComputeServers cred l) = resolveComputeServers cred l := by
  induction l with
  | nil => rfl
  | cons kv tl ih =>
    simp only [resolveComputeServers, List.map_cons] at *
    rw [resolveComputeServer_idem]
    exact congrArg _ ih

theorem resolveDataStores_idem (cred : Credentials) (l : List (String × DataStore)) :
    resolveDataStores cred (resolveDataStores cred l) = resolveDataStores cred l := by
  induction l with
  | nil => rfl
  | cons kv tl ih =>
    simp only [resolveDataStores, List.map_cons] at *
    rw [resolveDataStore_idem]
    exact congrArg _ ih

theorem adapter_resolve_server_idem (env : Env) (cfg : ComputeServer) :
    adapter_resolve_server env (adapter_resolve_server env cfg) = adapter_resolve_server env cfg := by
  cases cfg
  simp only [adapter_resolve_server]
  split_ifs <;> simp_all

theorem adapter_resolve_store_idem (env : Env) (k : String) (cfg : DataStore) :
    adapter_resolve_store env k (adapter_resolve_store env k cfg) = adapter_resolve_store env k cfg := by
  cases cfg
  simp only [adapter_resolve_store]
  split_ifs <;> simp_all

theorem adapter_setup_credentials_idem (env : Env) (wf : WorkflowData) :
    adapter_setup_credentials env (adapter_setup_credentials env wf) =
      adapter_setup_credentials env wf := by
  cases wf
  simp only [adapter_setup_credentials, List.map_map, WorkflowData.mk.injEq]
  refine ⟨trivial, ?_, ?_, trivial, trivial, trivial⟩ <;>
    · apply List.map_congr_left
      intro kv _
      simp [Function.comp, adapter_resolve_server_idem, adapter_resolve_store_idem]

/-- C2: credential resolution is idempotent.  For every fixed credential
source, applying the placeholder substitution of create_secret_payload to
its own output equals applying it once, the adapter credential setup of
migration_adapter.py is likewise idempotent, and non-placeholder field
values pass through unchanged. -/
theorem claim_C2_credential_resolution_idempotent
    (cred : Credentials) (env : Env) (wf : WorkflowData) (server_key : String)
    (cfg : ComputeServer) :
    resolve_workflow_credentials cred (resolve_workflow_credentials cred wf) =
      resolve_workflow_credentials cred wf
    ∧ adapter_setup_credentials env (adapter_setup_credentials env wf) =
        adapter_setup_credentials env wf
    ∧ (cfg.AccessKey ≠ some (server_key ++ "_ACCESS_KEY") →
        (resolveComputeServer cred server_key cfg).AccessKey = cfg.AccessKey)
    ∧ (cfg.Token ≠ some (server_key ++ "_TOKEN") →
        (resolveComputeServer cred server_key cfg).Token = cfg.Token) := by
  refine ⟨?_, adapter_setup_credentials_idem env wf, ?_, ?_⟩
  · simp only [resolve_workflow_credentials]
    rw [resolveComputeServers_idem, resolveDataStores_idem]
  · intro h
    simp only [resolveComputeServer]
    split_ifs <;>
      simp_all [resolve_lambda_server, resolve_github_server, resolve_ow_server,
        resolve_gcp_server, subst_placeholder]
  · intro h
    simp only [resolveComputeServer]
    split_ifs <;>
      simp_all [resolve_lambda_server, resolve_github_server, resolve_ow_server,
        resolve_gcp_server, subst_placeholder]

/-- Witness for C2 at a concrete input: a non-placeholder AccessKey passes
through the resolver unchanged. -/
theorem claim_C2_witness :
    (resolveComputeServer
      { My_GitHub_Account_TOKEN := "tok", My_Minio_Bucket_ACCESS_KEY := some "mak",
        My_Minio_Bucket_SECRET_KEY := some "msk", My_OW_Account_API_KEY := "owk",
        My_Lambda_Account_ACCESS_KEY := "lak", My_Lambda_Account_SECRET_KEY := "lsk",
        My_GCP_Account_PROJECT_ID := "proj", My_GCP_Account_SERVICE_ACCOUNT_KEY := "gsk",
        My_SLURM_Account_TOKEN := "slt" }
      "My_Server"
      { FaaSType := some "Lambda", AccessKey := some "already-resolved" }).AccessKey =
      some "already-resolved" := by
  have h := claim_C2_credential_resolution_idempotent
    { My_GitHub_Account_TOKEN := "tok", My_Minio_Bucket_ACCESS_KEY := some "mak",
      My_Minio_Bucket_SECRET_KEY := some "msk", My_OW_Account_API_KEY := "owk",
      My_Lambda_Account_ACCESS_KEY := "lak", My_Lambda_Account_SECRET_KEY := "lsk",
      My_GCP_Account_PROJECT_ID := "proj", My_GCP_Account_SERVICE_ACCOUNT_KEY := "gsk",
      My_SLURM_Account_TOKEN := "slt" }
    (fun _ => none) {} "My_Server"
    { FaaSType := some "Lambda", AccessKey := some "already-resolved" }
  exact h.2.2.1 (by decide)

/-! Credential gathering and the secret payload:
get_github_token (lines 178 to 184), get_gcp_credentials_from_workflow
(lines 198 to 247) and create_secret_payload (lines 280 to 359) of
register_workflow.py. -/

/-- get_github_token: read GH_PAT from the environment; a missing or empty
value exits the process with code 1. -/
def get_github_token (env : Env) : Except Nat String :=
  if truthyOpt (env "GH_PAT") then .ok ((env "GH_PAT").getD "") else .error 1

/-- First compute server whose lowercase FaaSType belongs to the GCP
group, as the lookup loops of get_gcp_credentials_from_workflow (lines 201
to 206) and create_secret_payload (lines 288 to 292). -/
def find_gcp_server (wf : WorkflowData) : Option (String × ComputeServer) :=
  wf.ComputeServers.find? (fun kv => decide ((str_lower (kv.2.FaaSType.getD "")) ∈ gcpTypes))

/-- GCP project id taken from the Namespace field of the first GCP server,
empty when no GCP server exists (create_secret_payload lines 286 to 292). -/
def gcp_project_id_of (wf : WorkflowData) : String :=
  match find_gcp_server wf with
  | some kv => kv.2.Namespace.getD ""
  | none => ""

/-- The GCP service account key as resolved by
get_gcp_credentials_from_workflow lines 224 to 228: the environment value
of GCP_SECRETKEY when the SecretKey field holds the sentinel placeholder,
otherwise the SecretKey field itself. -/
def gcp_service_account_key_of (env : Env) (wf : WorkflowData) : Option String :=
  match find_gcp_server wf with
  | some kv => if kv.2.SecretKey.getD "" = "GCP_SECRET_KEY" then env "GCP_SECRETKEY" else kv.2.SecretKey
  | none => none

/-- Observable side effects of the embedded functions: a write of content
to a file on disk, a mutation of the process environment, and a line sent
to the log sink (print). -/
inductive Effect
  | diskWrite (content : String)
  | setProcessEnv (key value : String)
  | logLine (line : String)
deriving DecidableEq

/-- Opaque stand-in for the path of the temporary key file produced by
tempfile.NamedTemporaryFile in get_gcp_credentials_from_workflow. -/
def temp_key_file_path : String := "/tmp/gcp-service-account-key.json"

/-- get_gcp_credentials_from_workflow: locates the GCP server, resolves the
service account key, and, when a key value is available, writes the key to
a temporary file on disk, points GOOGLE_APPLICATION_CREDENTIALS at it and
logs a line; returns the project id and the key file path together with
the list of effects performed.  Exits with code 1 when no GCP server,
no Namespace or no SecretKey is present. -/
def get_gcp_credentials_from_workflow (env : Env) (wf : WorkflowData) :
    Except Nat ((String × Option String) × List Effect) :=
  match find_gcp_server wf with
  | none => .error 1
  | some kv =>
    if ¬ truthyOpt kv.2.Namespace then .error 1
    else if ¬ truthyOpt kv.2.SecretKey then .error 1
    else
      let project_id := kv.2.Namespace.getD ""
      let placeholder := kv.2.SecretKey.getD ""
      let service_account_key : Option String :=
        if placeholder = "GCP_SECRET_KEY" then env "GCP_SECRETKEY" else some placeholder
      if truthyOpt service_account_key then
        .ok ((project_id, some temp_key_file_path),
          [Effect.diskWrite (service_account_key.getD ""),
           Effect.setProcessEnv "GOOGLE_APPLICATION_CREDENTIALS" temp_key_file_path,
           Effect.logLine ("Using GCP service account key authentication for project: " ++ project_id)])
      else
        .ok ((project_id, none),
          [Effect.logLine ("Using default GCP authentication for project: " ++ project_id)])

/-- The credentials dictionary literal of create_secret_payload lines 295
to 305, given the already fetched GitHub token. -/
def build_credentials (env : Env) (wf : WorkflowData) (token : String) : Credentials where
  My_GitHub_Account_TOKEN := token
  My_Minio_Bucket_ACCESS_KEY := env "MINIO_ACCESSKEY"
  My_Minio_Bucket_SECRET_KEY := env "MINIO_SECRETKEY"
  My_OW_Account_API_KEY := (env "OW_APIKEY").getD ""
  My_Lambda_Account_ACCESS_KEY := (env "AWS_ACCESSKEY").getD ""
  My_Lambda_Account_SECRET_KEY := (env "AWS_SECRETKEY").getD ""
  My_GCP_Account_PROJECT_ID := gcp_project_id_of wf
  My_GCP_Account_SERVICE_ACCOUNT_KEY := (env "GCP_SECRETKEY").getD ""
  My_SLURM_Account_TOKEN := (env "SLURM_TOKEN").getD ""

/-- Keys of the credentials dictionary of create_secret_payload. -/
def credential_keys : List String :=
  ["My_GitHub_Account_TOKEN", "My_Minio_Bucket_ACCESS_KEY", "My_Minio_Bucket_SECRET_KEY",
   "My_OW_Account_API_KEY", "My_Lambda_Account_ACCESS_KEY", "My_Lambda_Account_SECRET_KEY",
   "My_GCP_Account_PROJECT_ID", "My_GCP_Account_SERVICE_ACCOUNT_KEY", "My_SLURM_Account_TOKEN"]

/-- Top-level keys of the workflow JSON document as embedded by
WorkflowData (the structured maps plus any extra keys such as
_workflow_file). -/
def workflow_top_keys (wf : WorkflowData) : List String :=
  (if wf.WorkflowName.isSome then ["WorkflowName"] else []) ++
    ["ComputeServers", "DataStores", "ActionList", "ActionContainers"] ++ wf.extra

/-- The payload produced by create_secret_payload: the credentials map,
the workflow data with placeholders substituted, and the key set of the
resulting JSON object (credential keys plus the workflow keys, with the
_workflow_file bookkeeping key deleted, lines 307 to 313). -/
structure SecretPayload where
  credentials : Credentials
  ComputeServers : List (String × ComputeServer)
  DataStores : List (String × DataStore)
  topKeys : List String
deriving DecidableEq

/-- create_secret_payload: fetch the GitHub token (exiting when GH_PAT is
absent), assemble the credentials map, merge in the workflow data without
the _workflow_file key, and substitute credential placeholders in
ComputeServers and DataStores. -/
def create_secret_payload (env : Env) (wf : WorkflowData) : Except Nat SecretPayload :=
  match get_github_token env with
  | .error c => .error c
  | .ok token =>
    let cred := build_credentials env wf token
    .ok { credentials := cred
          ComputeServers := resolveComputeServers cred wf.ComputeServers
          DataStores := resolveDataStores cred wf.DataStores
          topKeys := credential_keys ++
            (workflow_top_keys wf).filter (fun k => decide (k ≠ "_workflow_file")) }

/-- C10: the secret payload never contains the internal bookkeeping key
_workflow_file, even when the input workflow data carries it. -/
theorem claim_C10_payload_has_no_workflow_file_key (env : Env) (wf : WorkflowData)
    (p : SecretPayload) (h : create_secret_payload env wf = .ok p) :
    "_workflow_file" ∉ p.topKeys := by
  unfold create_secret_payload at h
  cases hg : get_github_token env with
  | error c => rw [hg] at h; exact absurd h (by simp)
  | ok token =>
    rw [hg] at h
    simp only [Except.ok.injEq] at h
    subst h
    simp [credential_keys, List.mem_append, List.mem_filter]

/-- Witness for C10: a concrete workflow carrying the _workflow_file key
yields a payload without that key. -/
theorem claim_C10_witness :
    "_workflow_file" ∈ workflow_top_keys { extra := ["_workflow_file"] } ∧
    ∃ p, create_secret_payload (fun k => if k = "GH_PAT" then some "tok" else none)
        { extra := ["_workflow_file"] } = .ok p ∧ "_workflow_file" ∉ p.topKeys := by
  have hok : create_secret_payload (fun k => if k = "GH_PAT" then some "tok" else none)
      { extra := ["_workflow_file"] } =
      .ok { credentials := build_credentials
              (fun k => if k = "GH_PAT" then some "tok" else none)
              { extra := ["_workflow_file"] } "tok"
            ComputeServers := []
            DataStores := []
            topKeys := credential_keys ++
              ["ComputeServers", "DataStores", "ActionList", "ActionContainers"] } := rfl
  exact ⟨by decide, _, hok, claim_C10_payload_has_no_workflow_file_key _ _ _ hok⟩

/-- C6 counterexample: a workflow whose only compute server is a Lambda
server, deployed in an environment that supplies the AWS keys but not the
GitHub token GH_PAT, aborts credential resolution with exit code 1 even
though no CI platform occurs in the workflow. -/
theorem claim_C6_counterexample :
    create_secret_payload
        (fun k => if k = "AWS_ACCESSKEY" then some "AK"
          else if k = "AWS_SECRETKEY" then some "SK" else none)
        { ComputeServers := [("My_Lambda_Account",
            { FaaSType := some "Lambda",
              AccessKey := some "My_Lambda_Account_ACCESS_KEY",
              SecretKey := some "My_Lambda_Account_SECRET_KEY" })],
          ActionList := [("a1", { FunctionName := "f1", FaaSServer := "My_Lambda_Account" })] }
      = Except.error 1
    ∧ ∀ kv ∈ [("My_Lambda_Account",
        ({ FaaSType := some "Lambda",
           AccessKey := some "My_Lambda_Account_ACCESS_KEY",
           SecretKey := some "My_Lambda_Account_SECRET_KEY" } : ComputeServer))],
        (str_lower (kv.2.FaaSType.getD "")) ∉ githubTypes := by
  exact ⟨rfl, by decide⟩

/-- C6 amended: credential resolution aborts exactly when GH_PAT is unset
or empty, regardless of which platforms occur in the workflow; every other
credential slot, in particular the optional SLURM token, resolves to the
environment value or the empty string without error. -/
theorem claim_C6_github_token_unconditionally_mandatory (env : Env) (wf : WorkflowData) :
    ((∃ p, create_secret_payload env wf = .ok p) ↔ truthyOpt (env "GH_PAT"))
    ∧ (∀ p, create_secret_payload env wf = .ok p →
        p.credentials.My_SLURM_Account_TOKEN = (env "SLURM_TOKEN").getD ""
        ∧ p.credentials.My_Lambda_Account_ACCESS_KEY = (env "AWS_ACCESSKEY").getD ""
        ∧ p.credentials.My_OW_Account_API_KEY = (env "OW_APIKEY").getD ""
        ∧ p.credentials.My_GCP_Account_SERVICE_ACCOUNT_KEY = (env "GCP_SECRETKEY").getD "") := by
  unfold create_secret_payload get_github_token
  by_cases h : truthyOpt (env "GH_PAT") <;>
    simp [h, build_credentials]

/-- Witness for C6 amended: with GH_PAT present and SLURM_TOKEN unset, the
payload is produced and its SLURM slot is the empty string. -/
theorem claim_C6_witness :
    ∃ p, create_secret_payload (fun k => if k = "GH_PAT" then some "tok" else none) {} = .ok p
      ∧ p.credentials.My_SLURM_Account_TOKEN = "" := by
  have h := claim_C6_github_token_unconditionally_mandatory
    (fun k => if k = "GH_PAT" then some "tok" else none) {}
  obtain ⟨p, hp⟩ := h.1.mpr (by decide)
  exact ⟨p, hp, by simpa using (h.2 p hp).1⟩

/-- C7 counterexample: for a concrete workflow with a GCP server whose
SecretKey holds the sentinel placeholder, and an environment supplying the
service account key, GCP credential setup writes the resolved secret value
to a file on disk. -/
theorem claim_C7_counterexample :
    get_gcp_credentials_from_workflow
        (fun k => if k = "GCP_SECRETKEY" then some "sekret" else none)
        { ComputeServers := [("My_GCP_Account",
            { FaaSType := some "CloudFunctions", Namespace := some "proj1",
              SecretKey := some "GCP_SECRET_KEY" })] }
      = Except.ok (("proj1", some temp_key_file_path),
          [Effect.diskWrite "sekret",
           Effect.setProcessEnv "GOOGLE_APPLICATION_CREDENTIALS" temp_key_file_path,
           Effect.logLine "Using GCP service account key authentication for project: proj1"])
    ∧ (fun k => if k = "GCP_SECRETKEY" then some "sekret" else none : Env) "GCP_SECRETKEY"
        = some "sekret" :=
  ⟨rfl, rfl⟩

/-- C7 amended: the only value the GCP credential setup writes to disk is
the resolved service account key (written to the temporary key file), and
the log lines it emits are the two fixed authentication messages carrying
only the project id, never a secret value.  The payload construction of
create_secret_payload itself performs no I/O beyond environment reads and
is embedded as a pure function. -/
theorem claim_C7_gcp_setup_writes_only_the_key (env : Env) (wf : WorkflowData)
    (r : String × Option String) (effs : List Effect)
    (h : get_gcp_credentials_from_workflow env wf = .ok (r, effs)) :
    (∀ s, Effect.diskWrite s ∈ effs → gcp_service_account_key_of env wf = some s ∧ s ≠ "")
    ∧ (∀ s, Effect.logLine s ∈ effs →
        s = "Using GCP service account key authentication for project: " ++ r.1
        ∨ s = "Using default GCP authentication for project: " ++ r.1) := by
  unfold get_gcp_credentials_from_workflow at h
  cases hf : find_gcp_server wf with
  | none => rw [hf] at h; exact absurd h (by simp)
  | some kv =>
    rw [hf] at h
    have hkey : gcp_service_account_key_of env wf =
        (if kv.2.SecretKey.getD "" = "GCP_SECRET_KEY" then env "GCP_SECRETKEY"
         else kv.2.SecretKey) := by
      unfold gcp_service_account_key_of
      rw [hf]
    rw [hkey]
    simp only [] at h
    split_ifs at h with h1 h2 h3 h4 h5
    · simp only [Except.ok.injEq, Prod.mk.injEq] at h
      obtain ⟨hr, he⟩ := h
      subst he; subst hr
      constructor
      · intro s hs
        simp only [List.mem_cons, List.not_mem_nil, or_false] at hs
        rcases hs with hs | hs | hs
        · injection hs with hs
          subst hs
          rw [if_pos h3]
          revert h4; unfold truthyOpt; cases env "GCP_SECRETKEY" <;> simp
        · exact absurd hs (by simp)
        · exact absurd hs (by simp)
      · intro s hs
        simp only [List.mem_cons, List.not_mem_nil, or_false] at hs
        rcases hs with hs | hs | hs
        · exact absurd hs (by simp)
        · exact absurd hs (by simp)
        · injection hs with hs
          subst hs
          left; rfl
    · simp only [Except.ok.injEq, Prod.mk.injEq] at h
      obtain ⟨hr, he⟩ := h
      subst he; subst hr
      constructor
      · intro s hs
        simp only [List.mem_cons, List.not_mem_nil, or_false] at hs
        exact absurd hs (by simp)
      · intro s hs
        simp only [List.mem_cons, List.not_mem_nil, or_false] at hs
        injection hs with hs
        subst hs
        right; rfl
    · simp only [Except.ok.injEq, Prod.mk.injEq] at h
      obtain ⟨hr, he⟩ := h
      subst he; subst hr
      constructor
      · intro s hs
        simp only [List.mem_cons, List.not_mem_nil, or_false] at hs
        rcases hs with hs | hs | hs
        · injection hs with hs
          subst hs
          rw [if_neg h3]
          refine ⟨?_, ?_⟩ <;>
            · revert h2; unfold truthyOpt; cases kv.2.SecretKey <;> simp
        · exact absurd hs (by simp)
        · exact absurd hs (by simp)
      · intro s hs
        simp only [List.mem_cons, List.not_mem_nil, or_false] at hs
        rcases hs with hs | hs | hs
        · exact absurd hs (by simp)
        · exact absurd hs (by simp)
        · injection hs with hs
          subst hs
          left; rfl
    · simp only [Except.ok.injEq, Prod.mk.injEq] at h
      obtain ⟨hr, he⟩ := h
      subst he; subst hr
      constructor
      · intro s hs
        simp only [List.mem_cons, List.not_mem_nil, or_false] at hs
        exact absurd hs (by simp)
      · intro s hs
        simp only [List.mem_cons, List.not_mem_nil, or_false] at hs
        injection hs with hs
        subst hs
        right; rfl

/-- Witness for C7 amended: applied at a concrete GCP workflow, the
resolved key of the embedding is exactly the disk-written value. -/
theorem claim_C7_witness :
    gcp_service_account_key_of
        (fun k => if k = "GCP_SECRETKEY" then some "key-material" else none)
        { ComputeServers := [("My_GCP_Account",
            { FaaSType := some "CloudFunctions", Namespace := some "proj2",
              SecretKey := some "GCP_SECRET_KEY" })] }
      = some "key-material" := by
  have h := claim_C7_gcp_setup_writes_only_the_key
    (fun k => if k = "GCP_SECRETKEY" then some "key-material" else none)
    { ComputeServers := [("My_GCP_Account",
        { FaaSType := some "CloudFunctions", Namespace := some "proj2",
          SecretKey := some "GCP_SECRET_KEY" })] }
    ("proj2", some temp_key_file_path)
    [Effect.diskWrite "key-material",
     Effect.setProcessEnv "GOOGLE_APPLICATION_CREDENTIALS" temp_key_file_path,
     Effect.logLine "Using GCP service account key authentication for project: proj2"]
    rfl
  exact (h.1 "key-material" (by decide)).1

/-! The AWS Lambda reconciliation path of deploy_to_aws (register_workflow.py
lines 488 to 704): per-action probe, create-or-update branch, bounded
polling until the function settles, then the configuration update.  The
platform interaction is embedded as an explicit trace of calls. -/

/-- Platform calls issued by deploy_to_aws for one action.  getStatus n is
the n-th get_function poll of a waiting loop; sleepSeconds records the
time.sleep between polls. -/
inductive AwsCall
  | updateFunctionCode
  | createFunction (memory timeout : Int)
  | getStatus (attempt : Nat)
  | sleepSeconds (secs : Nat)
  | updateFunctionConfiguration (memory timeout : Int)
deriving DecidableEq

/-- Classification of one poll result inside a waiting loop. -/
inductive WaitStep
  | done
  | fail
  | keep
deriving DecidableEq

/-- Terminal outcome of a waiting loop. -/
inductive WaitOutcome
  | settled
  | failedExit
  | timedOut
deriving DecidableEq

/-- The fixed poll interval, time.sleep(5) in both waiting loops. -/
def poll_interval_seconds : Nat := 5

/-- The attempt ceiling of both waiting loops, max_attempts = 60. -/
def max_attempts : Nat := 60

/-- Break, abort and continue conditions of the code-update waiting loop
(lines 607 to 623): the poll yields the pair State and LastUpdateStatus. -/
def check_update_status (s : String × String) : WaitStep :=
  if s.1 = "Active" ∧ s.2 = "Successful" then .done
  else if s.1 = "Failed" ∨ s.2 = "Failed" then .fail
  else .keep

/-- Break, abort and continue conditions of the creation waiting loop
(lines 659 to 677), which inspects only the State field. -/
def check_create_status (s : String × String) : WaitStep :=
  if s.1 = "Active" then .done
  else if s.1 = "Failed" then .fail
  else .keep

/-- One waiting loop: starting at the given attempt index with the given
remaining fuel (max_attempts minus attempts already used), poll the
platform, classify the result, and either settle, abort, or sleep and
retry.  A poll that raises an exception (status returns none) is treated
like a pending state, exactly as the except branches of the source.
Returns the calls performed and the loop outcome. -/
def wait_calls (check : String × String → WaitStep) (status : Nat → Option (String × String)) :
    Nat → Nat → List AwsCall × WaitOutcome
  | _, 0 => ([], .timedOut)
  | attempt, fuel+1 =>
    match status attempt with
    | none =>
      let r := wait_calls check status (attempt+1) fuel
      (AwsCall.getStatus attempt :: AwsCall.sleepSeconds poll_interval_seconds :: r.1, r.2)
    | some s =>
      match check s with
      | .done => ([AwsCall.getStatus attempt], .settled)
      | .fail => ([AwsCall.getStatus attempt], .failedExit)
      | .keep =>
        let r := wait_calls check status (attempt+1) fuel
        (AwsCall.getStatus attempt :: AwsCall.sleepSeconds poll_interval_seconds :: r.1, r.2)

/-- Number of platform polls in a call list. -/
def count_polls (l : List AwsCall) : Nat :=
  l.countP (fun c => match c with | AwsCall.getStatus _ => true | _ => false)

/-- The per-action deployment trace of deploy_to_aws after the probe:
when the probe found the function, update the code, wait for the code
update to settle, then update the configuration (lines 595 to 636); when
the probe raised ResourceNotFoundException, create the function with the
clamped-and-capped minimal parameters, wait for it to become active, then
update the full configuration (lines 638 to 694).  A failed or timed out
wait exits the process with code 1.  Returns the call trace and the exit
code, none meaning normal completion. -/
def deploy_action_aws_calls (function_exists : Bool)
    (status : Nat → Option (String × String)) (memory timeout : Int) :
    List AwsCall × Option Nat :=
  if function_exists then
    let r := wait_calls check_update_status status 0 max_attempts
    match r.2 with
    | .settled =>
      (AwsCall.updateFunctionCode :: r.1 ++ [AwsCall.updateFunctionConfiguration memory timeout],
        none)
    | .failedExit => (AwsCall.updateFunctionCode :: r.1, some 1)
    | .timedOut => (AwsCall.updateFunctionCode :: r.1, some 1)
  else
    let c := AwsCall.createFunction (max 128 memory) (min 300 timeout)
    let r := wait_calls check_create_status status 0 max_attempts
    match r.2 with
    | .settled =>
      (c :: r.1 ++ [AwsCall.updateFunctionConfiguration memory timeout], none)
    | .failedExit => (c :: r.1, some 1)
    | .timedOut => (c :: r.1, some 1)

/-! Memory and timeout derivation for a Lambda action (lines 541 to 580). -/

/-- Requested memory: action-level MaxMemory, else server-level MaxMemory,
else the default 1024 MB. -/
def effective_max_memory (action : ActionData) (server : ComputeServer) : Int :=
  (action.MaxMemory <|> server.MaxMemory).getD 1024

/-- Requested runtime: action-level MaxRuntime, else server-level
MaxRuntime, else the default 900 s. -/
def effective_max_runtime (action : ActionData) (server : ComputeServer) : Int :=
  (action.MaxRuntime <|> server.MaxRuntime).getD 900

/-- Clamp the requested memory to the Lambda bounds 128 to 10240 MB
(lines 566 to 571); the flag records whether a warning was printed. -/
def clamp_lambda_memory (m : Int) : Int × Bool :=
  if m < 128 then (128, true)
  else if m > 10240 then (10240, true)
  else (m, false)

/-- Clamp the requested timeout to the Lambda bounds 1 to 900 s
(lines 573 to 578); the flag records whether a warning was printed. -/
def clamp_lambda_timeout (t : Int) : Int × Bool :=
  if t < 1 then (1, true)
  else if t > 900 then (900, true)
  else (t, false)

/-- Full per-action AWS deployment: derive the effective memory and
timeout, clamp them, then run the create-or-update trace with the clamped
values. -/
def deploy_action_aws (action : ActionData) (server : ComputeServer)
    (function_exists : Bool) (status : Nat → Option (String × String)) :
    List AwsCall × Option Nat :=
  deploy_action_aws_calls function_exists status
    (clamp_lambda_memory (effective_max_memory action server)).1
    (clamp_lambda_timeout (effective_max_runtime action server)).1

/-! The OpenWhisk reconciliation path of deploy_to_ow (lines 769 to 784):
probe with wsk action get, then update or create through the wsk CLI. -/

/-- Commands issued through the wsk CLI for one action. -/
inductive WskCmd
  | actionGet (name : String)
  | actionUpdate (name image : String)
  | actionCreate (name image : String)
deriving DecidableEq

/-- Per-action OpenWhisk deployment calls: probe for existence, then
update when the action exists and create when it does not. -/
def deploy_action_ow_calls (action_exists : Bool) (name image : String) : List WskCmd :=
  WskCmd.actionGet name ::
    (if action_exists then [WskCmd.actionUpdate name image] else [WskCmd.actionCreate name image])

/-! Unfolding lemmas for wait_calls. -/

theorem wait_calls_zero (check : String × String → WaitStep)
    (status : Nat → Option (String × String)) (a : Nat) :
    wait_calls check status a 0 = ([], .timedOut) := rfl

theorem wait_calls_none (check : String × String → WaitStep)
    (status : Nat → Option (String × String)) (a f : Nat) (h : status a = none) :
    wait_calls check status a (f+1) =
      (AwsCall.getStatus a :: AwsCall.sleepSeconds poll_interval_seconds ::
        (wait_calls check status (a+1) f).1, (wait_calls check status (a+1) f).2) := by
  conv_lhs => unfold wait_calls
  rw [h]

theorem wait_calls_done (check : String × String → WaitStep)
    (status : Nat → Option (String × String)) (a f : Nat) (s : String × String)
    (h : status a = some s) (hc : check s = .done) :
    wait_calls check status a (f+1) = ([AwsCall.getStatus a], .settled) := by
  conv_lhs => unfold wait_calls
  rw [h]
  simp only [hc]

theorem wait_calls_fail_step (check : String × String → WaitStep)
    (status : Nat → Option (String × String)) (a f : Nat) (s : String × String)
    (h : status a = some s) (hc : check s = .fail) :
    wait_calls check status a (f+1) = ([AwsCall.getStatus a], .failedExit) := by
  conv_lhs => unfold wait_calls
  rw [h]
  simp only [hc]

theorem wait_calls_keep (check : String × String → WaitStep)
    (status : Nat → Option (String × String)) (a f : Nat) (s : String × String)
    (h : status a = some s) (hc : check s = .keep) :
    wait_calls check status a (f+1) =
      (AwsCall.getStatus a :: AwsCall.sleepSeconds poll_interval_seconds ::
        (wait_calls check status (a+1) f).1, (wait_calls check status (a+1) f).2) := by
  conv_lhs => unfold wait_calls
  rw [h]
  simp only [hc]

/-- Every call of a waiting loop is a poll or the fixed five-second sleep. -/
theorem wait_calls_mem (check : String × String → WaitStep)
    (status : Nat → Option (String × String)) :
    ∀ f a c, c ∈ (wait_calls check status a f).1 →
      (∃ n, c = AwsCall.getStatus n) ∨ c = AwsCall.sleepSeconds poll_interval_seconds := by
  intro f
  induction f with
  | zero =>
    intro a c hc
    rw [wait_calls_zero] at hc
    exact absurd hc (List.not_mem_nil c)
  | succ f ih =>
    intro a c hc
    cases hsa : status a with
    | none =>
      rw [wait_calls_none check status a f hsa] at hc
      simp only [List.mem_cons] at hc
      rcases hc with hc | hc | hc
      · exact Or.inl ⟨a, hc⟩
      · exact Or.inr hc
      · exact ih (a+1) c hc
    | some s =>
      cases hcs : check s with
      | done =>
        rw [wait_calls_done check status a f s hsa hcs] at hc
        simp only [List.mem_cons, List.not_mem_nil, or_false] at hc
        exact Or.inl ⟨a, hc⟩
      | fail =>
        rw [wait_calls_fail_step check status a f s hsa hcs] at hc
        simp only [List.mem_cons, List.not_mem_nil, or_false] at hc
        exact Or.inl ⟨a, hc⟩
      | keep =>
        rw [wait_calls_keep check status a f s hsa hcs] at hc
        simp only [List.mem_cons] at hc
        rcases hc with hc | hc | hc
        · exact Or.inl ⟨a, hc⟩
        · exact Or.inr hc
        · exact ih (a+1) c hc

/-- A waiting loop performs at most fuel-many polls. -/
theorem wait_calls_count_le (check : String × String → WaitStep)
    (status : Nat → Option (String × String)) :
    ∀ f a, count_polls (wait_calls check status a f).1 ≤ f := by
  intro f
  induction f with
  | zero =>
    intro a
    rw [wait_calls_zero]
    simp [count_polls]
  | succ f ih =>
    intro a
    cases hsa : status a with
    | none =>
      rw [wait_calls_none check status a f hsa]
      have hrec := ih (a+1)
      simp only [count_polls] at hrec
      simp [count_polls, List.countP_cons]
      omega
    | some s =>
      cases hcs : check s with
      | done =>
        rw [wait_calls_done check status a f s hsa hcs]
        simp [count_polls, List.countP_cons]
      | fail =>
        rw [wait_calls_fail_step check status a f s hsa hcs]
        simp [count_polls, List.countP_cons]
      | keep =>
        rw [wait_calls_keep check status a f s hsa hcs]
        have hrec := ih (a+1)
        simp only [count_polls] at hrec
        simp [count_polls, List.countP_cons]
        omega

/-- When no poll among the fuel-many attempts reports a terminal
classification, the waiting loop times out after exactly fuel-many polls. -/
theorem wait_calls_timeout (check : String × String → WaitStep)
    (status : Nat → Option (String × String)) :
    ∀ f a, (∀ n s, a ≤ n → n < a + f → status n = some s → check s = .keep) →
      (wait_calls check status a f).2 = .timedOut ∧
      count_polls (wait_calls check status a f).1 = f := by
  intro f
  induction f with
  | zero =>
    intro a _
    rw [wait_calls_zero]
    simp [count_polls]
  | succ f ih =>
    intro a hkeep
    cases hsa : status a with
    | none =>
      rw [wait_calls_none check status a f hsa]
      have hr := ih (a+1) (fun n s hn1 hn2 hns => hkeep n s (by omega) (by omega) hns)
      simp only [count_polls] at hr
      refine ⟨hr.1, ?_⟩
      simp [count_polls, List.countP_cons]
      omega
    | some s =>
      have hcs : check s = .keep := hkeep a s (by omega) (by omega) hsa
      rw [wait_calls_keep check status a f s hsa hcs]
      have hr := ih (a+1) (fun n s hn1 hn2 hns => hkeep n s (by omega) (by omega) hns)
      simp only [count_polls] at hr
      refine ⟨hr.1, ?_⟩
      simp [count_polls, List.countP_cons]
      omega

/-- A poll classified as fail ends the waiting loop immediately: when the
first k polls are non-terminal and poll k reports fail, the loop exits with
failedExit after exactly k+1 polls. -/
theorem wait_calls_fail (check : String × String → WaitStep)
    (status : Nat → Option (String × String)) :
    ∀ k f a, k < f →
      (∀ i s, a ≤ i → i < a + k → status i = some s → check s = .keep) →
      ∀ s, status (a + k) = some s → check s = .fail →
      (wait_calls check status a f).2 = .failedExit ∧
      count_polls (wait_calls check status a f).1 = k + 1 := by
  intro k
  induction k with
  | zero =>
    intro f a hf _ s hs hcs
    cases f with
    | zero => omega
    | succ f =>
      rw [wait_calls_fail_step check status a f s (by simpa using hs) hcs]
      simp [count_polls, List.countP_cons]
  | succ k ih =>
    intro f a hf hkeep s hs hcs
    cases f with
    | zero => omega
    | succ f =>
      have hs' : status (a + 1 + k) = some s := by
        rw [show a + 1 + k = a + (k + 1) by omega]
        exact hs
      have hkeep' : ∀ i s, a + 1 ≤ i → i < a + 1 + k → status i = some s → check s = .keep :=
        fun i s hi1 hi2 his => hkeep i s (by omega) (by omega) his
      have hr := ih f (a+1) (by omega) hkeep' s hs' hcs
      cases hsa : status a with
      | none =>
        rw [wait_calls_none check status a f hsa]
        simp only [count_polls] at hr
        refine ⟨hr.1, ?_⟩
        simp [count_polls, List.countP_cons]
        omega
      | some s0 =>
        have hcs0 : check s0 = .keep := hkeep a s0 (by omega) (by omega) hsa
        rw [wait_calls_keep check status a f s0 hsa hcs0]
        simp only [count_polls] at hr
        refine ⟨hr.1, ?_⟩
        simp [count_polls, List.countP_cons]
        omega

/-- A settled waiting loop contains a poll that observed the done
classification. -/
theorem wait_calls_settled (check : String × String → WaitStep)
    (status : Nat → Option (String × String)) :
    ∀ f a, (wait_calls check status a f).2 = .settled →
      ∃ n s, AwsCall.getStatus n ∈ (wait_calls check status a f).1 ∧
        status n = some s ∧ check s = .done := by
  intro f
  induction f with
  | zero =>
    intro a h
    rw [wait_calls_zero] at h
    exact absurd h (by simp)
  | succ f ih =>
    intro a h
    cases hsa : status a with
    | none =>
      rw [wait_calls_none check status a f hsa] at h ⊢
      obtain ⟨n, s, hn, hns, hcs⟩ := ih (a+1) h
      exact ⟨n, s, by simp [hn], hns, hcs⟩
    | some s =>
      cases hcs : check s with
      | done =>
        rw [wait_calls_done check status a f s hsa hcs]
        exact ⟨a, s, by simp, hsa, hcs⟩
      | fail =>
        rw [wait_calls_fail_step check status a f s hsa hcs] at h
        exact absurd h (by simp)
      | keep =>
        rw [wait_calls_keep check status a f s hsa hcs] at h ⊢
        obtain ⟨n, s1, hn, hns, hcs1⟩ := ih (a+1) h
        exact ⟨n, s1, by simp [hn], hns, hcs1⟩

/-- Classification of the calls of the update path: the code update, the
polls and sleeps of the wait, and the final configuration update. -/
theorem mem_deploy_update (status : Nat → Option (String × String)) (memory timeout : Int)
    (c : AwsCall) (hc : c ∈ (deploy_action_aws_calls true status memory timeout).1) :
    c = AwsCall.updateFunctionCode ∨
      c ∈ (wait_calls check_update_status status 0 max_attempts).1 ∨
      c = AwsCall.updateFunctionConfiguration memory timeout := by
  cases h : (wait_calls check_update_status status 0 max_attempts).2 <;>
    simp [deploy_action_aws_calls, h] at hc <;> tauto

/-- Classification of the calls of the create path: the creation with
capped minimal parameters, the polls and sleeps of the wait, and the final
configuration update. -/
theorem mem_deploy_create (status : Nat → Option (String × String)) (memory timeout : Int)
    (c : AwsCall) (hc : c ∈ (deploy_action_aws_calls false status memory timeout).1) :
    c = AwsCall.createFunction (max 128 memory) (min 300 timeout) ∨
      c ∈ (wait_calls check_create_status status 0 max_attempts).1 ∨
      c = AwsCall.updateFunctionConfiguration memory timeout := by
  cases h : (wait_calls check_create_status status 0 max_attempts).2 <;>
    simp [deploy_action_aws_calls, h] at hc <;> tauto

/-- The update-path trace starts with the code update call. -/
theorem deploy_update_head (status : Nat → Option (String × String)) (memory timeout : Int) :
    AwsCall.updateFunctionCode ∈ (deploy_action_aws_calls true status memory timeout).1 := by
  cases h : (wait_calls check_update_status status 0 max_attempts).2 <;>
    simp [deploy_action_aws_calls, h]

/-- The create-path trace starts with the creation call. -/
theorem deploy_create_head (status : Nat → Option (String × String)) (memory timeout : Int) :
    AwsCall.createFunction (max 128 memory) (min 300 timeout) ∈
      (deploy_action_aws_calls false status memory timeout).1 := by
  cases h : (wait_calls check_create_status status 0 max_attempts).2 <;>
    simp [deploy_action_aws_calls, h]

/-- C3: the probe decides the branch exclusively.  On AWS, a probe that
found the function leads to an update-code call and never a create call,
and a probe that did not find it leads to a create call and never an
update-code call, for every status sequence; on OpenWhisk, the wsk
existence check likewise selects action update versus action create
exclusively. -/
theorem claim_C3_probe_decides_branch (status : Nat → Option (String × String))
    (memory timeout : Int) (name image : String) :
    (AwsCall.updateFunctionCode ∈ (deploy_action_aws_calls true status memory timeout).1
      ∧ ∀ m t, AwsCall.createFunction m t ∉ (deploy_action_aws_calls true status memory timeout).1)
    ∧ ((∃ m t, AwsCall.createFunction m t ∈ (deploy_action_aws_calls false status memory timeout).1)
      ∧ AwsCall.updateFunctionCode ∉ (deploy_action_aws_calls false status memory timeout).1)
    ∧ (WskCmd.actionUpdate name image ∈ deploy_action_ow_calls true name image
      ∧ WskCmd.actionCreate name image ∉ deploy_action_ow_calls true name image)
    ∧ (WskCmd.actionCreate name image ∈ deploy_action_ow_calls false name image
      ∧ WskCmd.actionUpdate name image ∉ deploy_action_ow_calls false name image) := by
  refine ⟨⟨deploy_update_head status memory timeout, ?_⟩,
    ⟨⟨max 128 memory, min 300 timeout, deploy_create_head status memory timeout⟩, ?_⟩,
    ⟨by simp [deploy_action_ow_calls], by simp [deploy_action_ow_calls]⟩,
    ⟨by simp [deploy_action_ow_calls], by simp [deploy_action_ow_calls]⟩⟩
  · intro m t hmem
    rcases mem_deploy_update status memory timeout _ hmem with h | h | h
    · exact absurd h (by simp)
    · rcases wait_calls_mem check_update_status status max_attempts 0 _ h with ⟨n, hn⟩ | hn
      · exact absurd hn (by simp)
      · exact absurd hn (by simp)
    · exact absurd h (by simp)
  · intro hmem
    rcases mem_deploy_create status memory timeout _ hmem with h | h | h
    · exact absurd h (by simp)
    · rcases wait_calls_mem check_create_status status max_attempts 0 _ h with ⟨n, hn⟩ | hn
      · exact absurd hn (by simp)
      · exact absurd hn (by simp)
    · exact absurd h (by simp)

/-- Witness for C3 at a concrete status sequence: the found branch issues
the update-code call. -/
theorem claim_C3_witness :
    AwsCall.updateFunctionCode ∈
      (deploy_action_aws_calls true (fun _ => some ("Active", "Successful")) 512 60).1 :=
  (claim_C3_probe_decides_branch (fun _ => some ("Active", "Successful")) 512 60 "a" "img").1.1

/-- C4: every waiting loop is bounded.  The loop performs at most
max_attempts polls; when no poll among the first max_attempts reports a
terminal classification it times out after exactly max_attempts polls;
a poll reporting the failed classification ends the wait immediately
(after the failing poll itself); every sleep between polls is the fixed
five-second interval; and the configured ceiling is 60 attempts. -/
theorem claim_C4_waiting_loop_bounded (check : String × String → WaitStep)
    (status : Nat → Option (String × String)) :
    count_polls (wait_calls check status 0 max_attempts).1 ≤ max_attempts
    ∧ ((∀ n s, n < max_attempts → status n = some s → check s = .keep) →
        (wait_calls check status 0 max_attempts).2 = .timedOut ∧
        count_polls (wait_calls check status 0 max_attempts).1 = max_attempts)
    ∧ (∀ k, k < max_attempts →
        (∀ i s, i < k → status i = some s → check s = .keep) →
        ∀ s, status k = some s → check s = .fail →
          (wait_calls check status 0 max_attempts).2 = .failedExit ∧
          count_polls (wait_calls check status 0 max_attempts).1 = k + 1)
    ∧ (∀ n, AwsCall.sleepSeconds n ∈ (wait_calls check status 0 max_attempts).1 → n = 5)
    ∧ max_attempts = 60 := by
  refine ⟨wait_calls_count_le check status max_attempts 0, ?_, ?_, ?_, rfl⟩
  · intro hkeep
    exact wait_calls_timeout check status max_attempts 0
      (fun n s _ hn hns => hkeep n s (by omega) hns)
  · intro k hk hkeep s hs hcs
    exact wait_calls_fail check status k max_attempts 0 hk
      (fun i s1 _ hi his => hkeep i s1 (by omega) his) s (by simpa using hs) hcs
  · intro n hn
    rcases wait_calls_mem check status max_attempts 0 _ hn with ⟨m, hm⟩ | hm
    · exact absurd hm (by simp)
    · simp [poll_interval_seconds] at hm
      exact hm

/-- Witness for C4: a status sequence that never settles makes the
code-update loop time out. -/
theorem claim_C4_witness :
    (wait_calls check_update_status (fun _ => some ("Pending", "InProgress")) 0 max_attempts).2 =
      WaitOutcome.timedOut := by
  have h := claim_C4_waiting_loop_bounded check_update_status
    (fun _ => some ("Pending", "InProgress"))
  refine (h.2.1 ?_).1
  intro n s _ hs
  injection hs with hs
  rw [← hs]
  rfl

/-- Configuration update calls carry exactly the memory and timeout values
the trace was invoked with, and creation calls carry the capped minimal
parameters. -/
theorem deploy_config_values (ex : Bool) (status : Nat → Option (String × String))
    (memory timeout m t : Int)
    (h : AwsCall.updateFunctionConfiguration m t ∈ (deploy_action_aws_calls ex status memory timeout).1) :
    m = memory ∧ t = timeout := by
  cases ex with
  | true =>
    rcases mem_deploy_update status memory timeout _ h with h1 | h1 | h1
    · exact absurd h1 (by simp)
    · rcases wait_calls_mem check_update_status status max_attempts 0 _ h1 with ⟨n, hn⟩ | hn
      · exact absurd hn (by simp)
      · exact absurd hn (by simp)
    · injection h1 with hm ht
      exact ⟨hm, ht⟩
  | false =>
    rcases mem_deploy_create status memory timeout _ h with h1 | h1 | h1
    · exact absurd h1 (by simp)
    · rcases wait_calls_mem check_create_status status max_attempts 0 _ h1 with ⟨n, hn⟩ | hn
      · exact absurd hn (by simp)
      · exact absurd hn (by simp)
    · injection h1 with hm ht
      exact ⟨hm, ht⟩

/-- C5: memory and timeout clamping.  The clamped values always lie in the
Lambda bounds; a request below the floor is raised to the floor with a
warning; a request above the ceiling is lowered to the ceiling with a
warning; an in-range request passes through without warning; every
configuration update call of a deployment carries exactly the clamped
values, hence values inside the bounds; and the trace is never empty, so
clamping never drops the action. -/
theorem claim_C5_lambda_clamping (m t : Int) (action : ActionData) (server : ComputeServer)
    (ex : Bool) (status : Nat → Option (String × String)) :
    (128 ≤ (clamp_lambda_memory m).1 ∧ (clamp_lambda_memory m).1 ≤ 10240)
    ∧ (m < 128 → clamp_lambda_memory m = (128, true))
    ∧ (m > 10240 → clamp_lambda_memory m = (10240, true))
    ∧ (128 ≤ m → m ≤ 10240 → clamp_lambda_memory m = (m, false))
    ∧ (1 ≤ (clamp_lambda_timeout t).1 ∧ (clamp_lambda_timeout t).1 ≤ 900)
    ∧ (t < 1 → clamp_lambda_timeout t = (1, true))
    ∧ (t > 900 → clamp_lambda_timeout t = (900, true))
    ∧ (1 ≤ t → t ≤ 900 → clamp_lambda_timeout t = (t, false))
    ∧ (∀ m2 t2, AwsCall.updateFunctionConfiguration m2 t2 ∈ (deploy_action_aws action server ex status).1 →
        m2 = (clamp_lambda_memory (effective_max_memory action server)).1 ∧
        t2 = (clamp_lambda_timeout (effective_max_runtime action server)).1 ∧
        128 ≤ m2 ∧ m2 ≤ 10240 ∧ 1 ≤ t2 ∧ t2 ≤ 900)
    ∧ (deploy_action_aws action server ex status).1 ≠ [] := by
  refine ⟨?_, ?_, ?_, ?_, ?_, ?_, ?_, ?_, ?_, ?_⟩
  · unfold clamp_lambda_memory; split_ifs <;> constructor <;> omega
  · intro h; unfold clamp_lambda_memory; split_ifs <;> first | rfl | omega
  · intro h; unfold clamp_lambda_memory; split_ifs <;> first | rfl | omega
  · intro h1 h2; unfold clamp_lambda_memory; split_ifs <;> first | rfl | omega
  · unfold clamp_lambda_timeout; split_ifs <;> constructor <;> omega
  · intro h; unfold clamp_lambda_timeout; split_ifs <;> first | rfl | omega
  · intro h; unfold clamp_lambda_timeout; split_ifs <;> first | rfl | omega
  · intro h1 h2; unfold clamp_lambda_timeout; split_ifs <;> first | rfl | omega
  · intro m2 t2 hmem
    obtain ⟨hm, ht⟩ := deploy_config_values ex status _ _ m2 t2 hmem
    refine ⟨hm, ht, ?_, ?_, ?_, ?_⟩ <;>
      first
        | (rw [hm]; unfold clamp_lambda_memory; split_ifs <;> omega)
        | (rw [ht]; unfold clamp_lambda_timeout; split_ifs <;> omega)
  · unfold deploy_action_aws
    cases ex with
    | true =>
      have := deploy_update_head status
        (clamp_lambda_memory (effective_max_memory action server)).1
        (clamp_lambda_timeout (effective_max_runtime action server)).1
      intro hnil
      rw [hnil] at this
      exact absurd this (List.not_mem_nil _)
    | false =>
      have := deploy_create_head status
        (clamp_lambda_memory (effective_max_memory action server)).1
        (clamp_lambda_timeout (effective_max_runtime action server)).1
      intro hnil
      rw [hnil] at this
      exact absurd this (List.not_mem_nil _)

/-- Witness for C5: the spec example, a request of 50 MB is deployed with
the 128 MB floor and a warning recorded. -/
theorem claim_C5_witness : clamp_lambda_memory 50 = (128, true) :=
  (claim_C5_lambda_clamping 50 900
    { FunctionName := "f", FaaSServer := "s" } {} true (fun _ => none)).2.1 (by norm_num)

/-! Ordering predicates over AWS call traces, for the claim about the
update path of deploy_to_aws. -/

/-- Is the call a platform status poll. -/
def is_poll : AwsCall → Bool
  | AwsCall.getStatus _ => true
  | _ => false

/-- Is the call the configuration update. -/
def is_config : AwsCall → Bool
  | AwsCall.updateFunctionConfiguration _ _ => true
  | _ => false

/-- Holds when no status poll occurs after any configuration update call
in the trace: a second WaitingForActive sub-phase after the configuration
update would violate it. -/
def no_poll_after_config : List AwsCall → Bool
  | [] => true
  | c :: rest =>
    ((!is_config c) || rest.all (fun x => !is_poll x)) && no_poll_after_config rest

/-- Did the n-th poll observe the code update as settled (State Active and
LastUpdateStatus Successful). -/
def observed_settle (status : Nat → Option (String × String)) (n : Nat) : Bool :=
  match status n with
  | some s => decide (check_update_status s = WaitStep.done)
  | none => false

/-- Scan a trace tracking whether some poll has already observed the code
update as settled; every configuration update call must come strictly
after such a poll. -/
def config_after_settle_ok (status : Nat → Option (String × String)) :
    Bool → List AwsCall → Bool
  | _, [] => true
  | seen, AwsCall.getStatus n :: rest =>
    config_after_settle_ok status (seen || observed_settle status n) rest
  | seen, AwsCall.updateFunctionConfiguration _ _ :: rest =>
    seen && config_after_settle_ok status seen rest
  | seen, _ :: rest => config_after_settle_ok status seen rest

/-- A trace with no configuration update call passes the scan with any
initial flag. -/
theorem config_ok_no_config (status : Nat → Option (String × String)) :
    ∀ l seen, (∀ m t, AwsCall.updateFunctionConfiguration m t ∉ l) →
      config_after_settle_ok status seen l = true := by
  intro l
  induction l with
  | nil => intro seen _; rfl
  | cons c rest ih =>
    intro seen hno
    cases c with
    | updateFunctionCode =>
      exact ih _ (fun m t hmt => hno m t (List.mem_cons_of_mem _ hmt))
    | createFunction a b =>
      exact ih _ (fun m t hmt => hno m t (List.mem_cons_of_mem _ hmt))
    | getStatus n =>
      exact ih _ (fun m t hmt => hno m t (List.mem_cons_of_mem _ hmt))
    | sleepSeconds k =>
      exact ih _ (fun m t hmt => hno m t (List.mem_cons_of_mem _ hmt))
    | updateFunctionConfiguration m t =>
      exact absurd (List.mem_cons_self _ _) (hno m t)

/-- The polls of a settled code-update wait flip the flag before the end:
appending any suffix that passes with the flag set yields a passing trace. -/
theorem config_ok_settled (status : Nat → Option (String × String)) :
    ∀ f a seen k, (wait_calls check_update_status status a f).2 = .settled →
      config_after_settle_ok status true k = true →
      config_after_settle_ok status seen ((wait_calls check_update_status status a f).1 ++ k) = true := by
  intro f
  induction f with
  | zero =>
    intro a seen k h _
    rw [wait_calls_zero] at h
    exact absurd h (by simp)
  | succ f ih =>
    intro a seen k h hk
    cases hsa : status a with
    | none =>
      rw [wait_calls_none check_update_status status a f hsa] at h ⊢
      exact ih (a+1) _ k h hk
    | some s =>
      cases hcs : check_update_status s with
      | done =>
        rw [wait_calls_done check_update_status status a f s hsa hcs] at h ⊢
        have hobs : observed_settle status a = true := by
          unfold observed_settle
          rw [hsa]
          simp [hcs]
        show config_after_settle_ok status (seen || observed_settle status a) k = true
        rw [hobs]
        simpa using hk
      | fail =>
        rw [wait_calls_fail_step check_update_status status a f s hsa hcs] at h
        exact absurd h (by simp)
      | keep =>
        rw [wait_calls_keep check_update_status status a f s hsa hcs] at h ⊢
        exact ih (a+1) _ k h hk

/-- A trace with no configuration update call trivially has no poll after
a configuration update. -/
theorem no_poll_after_config_no_config :
    ∀ l, (∀ m t, AwsCall.updateFunctionConfiguration m t ∉ l) →
      no_poll_after_config l = true := by
  intro l
  induction l with
  | nil => intro _; rfl
  | cons c rest ih =>
    intro hno
    have hrest := ih (fun m t hmt => hno m t (List.mem_cons_of_mem _ hmt))
    cases c with
    | updateFunctionCode => simp [no_poll_after_config, is_config, hrest]
    | createFunction a b => simp [no_poll_after_config, is_config, hrest]
    | getStatus n => simp [no_poll_after_config, is_config, hrest]
    | sleepSeconds k => simp [no_poll_after_config, is_config, hrest]
    | updateFunctionConfiguration m t =>
      exact absurd (List.mem_cons_self _ _) (hno m t)

/-- Appending a single configuration update call to a config-free trace
keeps the no-poll-after-config property. -/
theorem no_poll_after_config_append (m t : Int) :
    ∀ l, (∀ m2 t2, AwsCall.updateFunctionConfiguration m2 t2 ∉ l) →
      no_poll_after_config (l ++ [AwsCall.updateFunctionConfiguration m t]) = true := by
  intro l
  induction l with
  | nil => intro _; rfl
  | cons c rest ih =>
    intro hno
    have hrest := ih (fun m2 t2 hmt => hno m2 t2 (List.mem_cons_of_mem _ hmt))
    cases c with
    | updateFunctionCode => simp [no_poll_after_config, is_config, hrest]
    | createFunction a b => simp [no_poll_after_config, is_config, hrest]
    | getStatus n => simp [no_poll_after_config, is_config, hrest]
    | sleepSeconds k => simp [no_poll_after_config, is_config, hrest]
    | updateFunctionConfiguration m2 t2 =>
      exact absurd (List.mem_cons_self _ _) (hno m2 t2)

/-- The wait portion of the update path contains no configuration update
call. -/
theorem wait_no_config (check : String × String → WaitStep)
    (status : Nat → Option (String × String)) (f a : Nat) :
    ∀ m t, AwsCall.updateFunctionConfiguration m t ∉ (wait_calls check status a f).1 := by
  intro m t hmem
  rcases wait_calls_mem check status f a _ hmem with ⟨n, hn⟩ | hn
  · exact absurd hn (by simp)
  · exact absurd hn (by simp)

/-- C8 amended: in the update path, the configuration update is issued
only after a poll has observed the code update as settled, and no second
waiting sub-phase follows it: the trace never polls after the
configuration update call. -/
theorem claim_C8_config_update_after_code_settles
    (status : Nat → Option (String × String)) (memory timeout : Int) :
    config_after_settle_ok status false (deploy_action_aws_calls true status memory timeout).1 = true
    ∧ no_poll_after_config (deploy_action_aws_calls true status memory timeout).1 = true := by
  constructor
  · cases h : (wait_calls check_update_status status 0 max_attempts).2 with
    | settled =>
      simp only [deploy_action_aws_calls, if_true, h]
      show config_after_settle_ok status false
        ((wait_calls check_update_status status 0 max_attempts).1 ++
          [AwsCall.updateFunctionConfiguration memory timeout]) = true
      exact config_ok_settled status max_attempts 0 false _ h rfl
    | failedExit =>
      simp only [deploy_action_aws_calls, if_true, h]
      show config_after_settle_ok status false
        (wait_calls check_update_status status 0 max_attempts).1 = true
      exact config_ok_no_config status _ false (wait_no_config _ status max_attempts 0)
    | timedOut =>
      simp only [deploy_action_aws_calls, if_true, h]
      show config_after_settle_ok status false
        (wait_calls check_update_status status 0 max_attempts).1 = true
      exact config_ok_no_config status _ false (wait_no_config _ status max_attempts 0)
  · cases h : (wait_calls check_update_status status 0 max_attempts).2 with
    | settled =>
      simp only [deploy_action_aws_calls, if_true, h]
      show no_poll_after_config
        (AwsCall.updateFunctionCode ::
          ((wait_calls check_update_status status 0 max_attempts).1 ++
            [AwsCall.updateFunctionConfiguration memory timeout])) = true
      have htail := no_poll_after_config_append memory timeout _
        (wait_no_config check_update_status status max_attempts 0)
      simp [no_poll_after_config, is_config, htail]
    | failedExit =>
      simp only [deploy_action_aws_calls, if_true, h]
      show no_poll_after_config
        (AwsCall.updateFunctionCode ::
          (wait_calls check_update_status status 0 max_attempts).1) = true
      have htail := no_poll_after_config_no_config _
        (wait_no_config check_update_status status max_attempts 0)
      simp [no_poll_after_config, is_config, htail]
    | timedOut =>
      simp only [deploy_action_aws_calls, if_true, h]
      show no_poll_after_config
        (AwsCall.updateFunctionCode ::
          (wait_calls check_update_status status 0 max_attempts).1) = true
      have htail := no_poll_after_config_no_config _
        (wait_no_config check_update_status status max_attempts 0)
      simp [no_poll_after_config, is_config, htail]

/-- C8 counterexample to the two-sub-phase reading: for a status sequence
that settles immediately, the update path trace is exactly code update,
one poll, configuration update, and ends there: the configuration update
is the last call, so no second WaitingForActive sub-phase follows it. -/
theorem claim_C8_counterexample :
    deploy_action_aws_calls true (fun _ => some ("Active", "Successful")) 512 60 =
      ([AwsCall.updateFunctionCode, AwsCall.getStatus 0,
        AwsCall.updateFunctionConfiguration 512 60], none)
    ∧ ([AwsCall.updateFunctionCode, AwsCall.getStatus 0,
        AwsCall.updateFunctionConfiguration 512 60].reverse.head? =
        some (AwsCall.updateFunctionConfiguration 512 60)) :=
  ⟨rfl, rfl⟩

/-- Witness for C8 amended at a concrete status sequence. -/
theorem claim_C8_witness :
    no_poll_after_config
      (deploy_action_aws_calls true (fun _ => some ("Active", "Successful")) 512 60).1 = true :=
  (claim_C8_config_update_after_code_settles (fun _ => some ("Active", "Successful")) 512 60).2

/-! Platform routing: the per-platform action filters of the deploy
functions (lines 514 to 521, 377 to 383, 729 to 735, 819 to 824) and the
dispatch loop of main (lines 945 to 969). -/

/-- Lowercased FaaSType of the compute server an action is bound to,
empty when the server is missing (the workflow schema guarantees the
server exists). -/
def server_faas_type (wf : WorkflowData) (server_name : String) : String :=
  match wf.ComputeServers.lookup server_name with
  | some cfg => str_lower (cfg.FaaSType.getD "")
  | none => ""

/-- Actions filtered for AWS Lambda deployment (lines 515 to 521). -/
def lambda_actions (wf : WorkflowData) : List (String × ActionData) :=
  wf.ActionList.filter (fun kv => decide (server_faas_type wf kv.2.FaaSServer ∈ awsTypes))

/-- Actions filtered for GitHub Actions deployment (lines 377 to 383). -/
def github_actions (wf : WorkflowData) : List (String × ActionData) :=
  wf.ActionList.filter (fun kv => decide (server_faas_type wf kv.2.FaaSServer ∈ githubTypes))

/-- Actions filtered for OpenWhisk deployment (lines 729 to 735). -/
def ow_actions (wf : WorkflowData) : List (String × ActionData) :=
  wf.ActionList.filter (fun kv => decide (server_faas_type wf kv.2.FaaSServer ∈ owTypes))

/-- Actions filtered for GCP Cloud Functions deployment (lines 819 to 824). -/
def gcp_actions (wf : WorkflowData) : List (String × ActionData) :=
  wf.ActionList.filter (fun kv => decide (server_faas_type wf kv.2.FaaSServer ∈ gcpTypes))

/-- One step of the dispatch loop of main: either a platform deployment
call or the unknown-FaaSType warning. -/
inductive MainStep
  | deployAws
  | deployGithub
  | deployOw
  | deployGcp
  | warnUnknown (faas_type : String)
deriving DecidableEq

/-- Dispatch of one lowercased FaaSType in main (lines 958 to 969). -/
def dispatch_faas_type (t : String) : MainStep :=
  if t ∈ awsTypes then .deployAws
  else if t ∈ githubTypes then .deployGithub
  else if t ∈ owTypes then .deployOw
  else if t ∈ gcpTypes then .deployGcp
  else .warnUnknown t

/-- The dispatch loop of main over the collected FaaSType set. -/
def main_dispatch (faas_types : List String) : List MainStep :=
  faas_types.map dispatch_faas_type

/-- The set of lowercased FaaSType values of the workflow (lines 946 to
949), represented as the deduplicated list in first-occurrence order
(Python set iteration order is unspecified; theorems use membership only). -/
def workflow_faas_types (wf : WorkflowData) : List String :=
  ((wf.ComputeServers.filterMap (fun kv => kv.2.FaaSType)).map str_lower).dedup

/-- C9: an unknown FaaSType is never fatal.  A FaaSType outside every
recognized group dispatches to the warning step and to no platform call;
the dispatch loop still emits one step per collected type, so every
recognized platform present is still dispatched; and an action bound to a
server of unrecognized type is excluded from all four per-platform action
filters, so no platform call is attempted for it. -/
theorem claim_C9_unknown_faas_type_nonfatal (wf : WorkflowData) (types : List String)
    (t : String) (name : String) (a : ActionData) :
    ((t ∉ awsTypes ∧ t ∉ githubTypes ∧ t ∉ owTypes ∧ t ∉ gcpTypes) →
      dispatch_faas_type t = .warnUnknown t)
    ∧ (t ∈ types → dispatch_faas_type t ∈ main_dispatch types)
    ∧ (main_dispatch types).length = types.length
    ∧ ((server_faas_type wf a.FaaSServer ∉ awsTypes ∧
        server_faas_type wf a.FaaSServer ∉ githubTypes ∧
        server_faas_type wf a.FaaSServer ∉ owTypes ∧
        server_faas_type wf a.FaaSServer ∉ gcpTypes) →
        ((name, a) ∉ lambda_actions wf ∧ (name, a) ∉ github_actions wf ∧
          (name, a) ∉ ow_actions wf ∧ (name, a) ∉ gcp_actions wf)) := by
  refine ⟨?_, ?_, List.length_map _ _, ?_⟩
  · intro ⟨h1, h2, h3, h4⟩
    unfold dispatch_faas_type
    simp [h1, h2, h3, h4]
  · intro ht
    exact List.mem_map_of_mem dispatch_faas_type ht
  · intro ⟨h1, h2, h3, h4⟩
    refine ⟨?_, ?_, ?_, ?_⟩ <;>
      · intro hmem
        simp only [lambda_actions, github_actions, ow_actions, gcp_actions,
          List.mem_filter, decide_eq_true_eq] at hmem
        first
          | exact absurd hmem.2 h1
          | exact absurd hmem.2 h2
          | exact absurd hmem.2 h3
          | exact absurd hmem.2 h4

/-- Witness for C9: the SLURM type is not recognized and dispatches to the
warning step. -/
theorem claim_C9_witness : dispatch_faas_type "slurm" = MainStep.warnUnknown "slurm" :=
  (claim_C9_unknown_faas_type_nonfatal {} [] "slurm" "a"
    { FunctionName := "f", FaaSServer := "s" }).1 (by decide)

/-! The orchestration of main across platforms, with the per-action abort
behavior of the deploy functions: every per-action failure calls
sys.exit(1) (lines 616, 627, 668 to 669, 680 to 681, 696 to 704, 791 to
797, 910 to 919), which ends the whole process, so later actions and later
platforms are never attempted. -/

/-- Outcome of deploying one action against its platform. -/
inductive DeployOutcome
  | ok
  | err
deriving DecidableEq

/-- The per-platform action loop: deploy each action in order; a failing
action makes the process exit with code 1, abandoning the rest of the
loop.  Returns the attempted actions and the exit code, none meaning
normal completion. -/
def deploy_platform_run (beh : String → DeployOutcome) : List String → List String × Option Nat
  | [] => ([], none)
  | a :: rest =>
    match beh a with
    | .ok =>
      let r := deploy_platform_run beh rest
      (a :: r.1, r.2)
    | .err => ([a], some 1)

/-- The dispatch loop of main over the platform groups: platforms run in
order and a process exit inside one platform loop ends the whole run. -/
def run_groups (beh : String → DeployOutcome) : List (List String) → List String × Option Nat
  | [] => ([], none)
  | g :: rest =>
    let r := deploy_platform_run beh g
    match r.2 with
    | some c => (r.1, some c)
    | none =>
      let r2 := run_groups beh rest
      (r.1 ++ r2.1, r2.2)

/-- Names of the actions deployed for one dispatched FaaSType. -/
def group_for_type (wf : WorkflowData) (t : String) : List String :=
  if t ∈ awsTypes then (lambda_actions wf).map Prod.fst
  else if t ∈ githubTypes then (github_actions wf).map Prod.fst
  else if t ∈ owTypes then (ow_actions wf).map Prod.fst
  else if t ∈ gcpTypes then (gcp_actions wf).map Prod.fst
  else []

/-- The whole dispatch of main: deploy the groups of the collected
FaaSType values in the given iteration order. -/
def main_run (beh : String → DeployOutcome) (wf : WorkflowData) (type_order : List String) :
    List String × Option Nat :=
  run_groups beh (type_order.map (group_for_type wf))

theorem deploy_platform_run_none (beh : String → DeployOutcome) :
    ∀ l, (deploy_platform_run beh l).2 = none → (deploy_platform_run beh l).1 = l := by
  intro l
  induction l with
  | nil => intro _; rfl
  | cons a rest ih =>
    intro h
    cases hb : beh a with
    | ok =>
      simp only [deploy_platform_run, hb] at h ⊢
      rw [ih h]
    | err => simp [deploy_platform_run, hb] at h

theorem deploy_platform_run_err_iff (beh : String → DeployOutcome) :
    ∀ l, (deploy_platform_run beh l).2 = some 1 ↔
      ∃ a ∈ (deploy_platform_run beh l).1, beh a = .err := by
  intro l
  induction l with
  | nil => simp [deploy_platform_run]
  | cons a rest ih =>
    cases hb : beh a with
    | ok =>
      simp only [deploy_platform_run, hb]
      constructor
      · intro h
        obtain ⟨b, hb2, hberr⟩ := ih.mp h
        exact ⟨b, List.mem_cons_of_mem _ hb2, hberr⟩
      · intro ⟨b, hb2, hberr⟩
        rcases List.mem_cons.mp hb2 with hba | hbr
        · rw [hba] at hberr
          rw [hb] at hberr
          exact absurd hberr (by simp)
        · exact ih.mpr ⟨b, hbr, hberr⟩
    | err =>
      simp only [deploy_platform_run, hb]
      constructor
      · intro _
        exact ⟨a, by simp, hb⟩
      · intro _
        trivial

theorem deploy_platform_run_exit_cases (beh : String → DeployOutcome) :
    ∀ l, (deploy_platform_run beh l).2 = none ∨ (deploy_platform_run beh l).2 = some 1 := by
  intro l
  induction l with
  | nil => exact Or.inl rfl
  | cons a rest ih =>
    cases hb : beh a with
    | ok => simpa [deploy_platform_run, hb] using ih
    | err => simp [deploy_platform_run, hb]

theorem deploy_platform_run_first_fail (beh : String → DeployOutcome) :
    ∀ l, (deploy_platform_run beh l).2 = some 1 →
      ∃ pre a post, l = pre ++ a :: post ∧ (∀ b ∈ pre, beh b = .ok) ∧ beh a = .err ∧
        (deploy_platform_run beh l).1 = pre ++ [a] := by
  intro l
  induction l with
  | nil => intro h; simp [deploy_platform_run] at h
  | cons a rest ih =>
    intro h
    cases hb : beh a with
    | ok =>
      simp only [deploy_platform_run, hb] at h ⊢
      obtain ⟨pre, b, post, hsplit, hpre, hberr, hatt⟩ := ih h
      refine ⟨a :: pre, b, post, by simp [hsplit], ?_, hberr, ?_⟩
      · intro c hc
        rcases List.mem_cons.mp hc with hca | hcp
        · rw [hca]; exact hb
        · exact hpre c hcp
      · simp only [List.cons_append, List.cons.injEq]
        exact ⟨trivial, hatt⟩
    | err =>
      refine ⟨[], a, rest, rfl, by simp, hb, ?_⟩
      simp [deploy_platform_run, hb]

theorem run_groups_none (beh : String → DeployOutcome) :
    ∀ gs, (run_groups beh gs).2 = none → (run_groups beh gs).1 = gs.join := by
  intro gs
  induction gs with
  | nil => intro _; rfl
  | cons g rest ih =>
    intro h
    cases hg : (deploy_platform_run beh g).2 with
    | some c => simp [run_groups, hg] at h
    | none =>
      simp only [run_groups, hg] at h ⊢
      rw [deploy_platform_run_none beh g hg, ih h]
      rfl

theorem run_groups_exit_cases (beh : String → DeployOutcome) :
    ∀ gs, (run_groups beh gs).2 = none ∨ (run_groups beh gs).2 = some 1 := by
  intro gs
  induction gs with
  | nil => exact Or.inl rfl
  | cons g rest ih =>
    cases hg : (deploy_platform_run beh g).2 with
    | some c =>
      rcases deploy_platform_run_exit_cases beh g with h | h
      · rw [hg] at h; exact absurd h (by simp)
      · rw [hg] at h
        injection h with h
        simp [run_groups, hg, h]
    | none => simpa [run_groups, hg] using ih

theorem run_groups_err_iff (beh : String → DeployOutcome) :
    ∀ gs, (run_groups beh gs).2 = some 1 ↔
      ∃ a ∈ (run_groups beh gs).1, beh a = .err := by
  intro gs
  induction gs with
  | nil => simp [run_groups]
  | cons g rest ih =>
    cases hg : (deploy_platform_run beh g).2 with
    | some c =>
      have hc : c = 1 := by
        rcases deploy_platform_run_exit_cases beh g with h | h
        · rw [hg] at h; exact absurd h (by simp)
        · rw [hg] at h; injection h
      subst hc
      simp only [run_groups, hg]
      constructor
      · intro _
        exact (deploy_platform_run_err_iff beh g).mp hg
      · intro _
        trivial
    | none =>
      simp only [run_groups, hg]
      constructor
      · intro h
        obtain ⟨b, hbmem, hberr⟩ := ih.mp h
        exact ⟨b, by simp [hbmem], hberr⟩
      · intro ⟨b, hbmem, hberr⟩
        rcases List.mem_append.mp hbmem with hbg | hbr
        · exfalso
          have : (deploy_platform_run beh g).2 = some 1 :=
            (deploy_platform_run_err_iff beh g).mpr ⟨b, hbg, hberr⟩
          rw [hg] at this
          exact absurd this (by simp)
        · exact ih.mpr ⟨b, hbr, hberr⟩

theorem run_groups_first_fail (beh : String → DeployOutcome) :
    ∀ gs, (run_groups beh gs).2 = some 1 →
      ∃ pre a rest, gs.join = pre ++ a :: rest ∧ (∀ b ∈ pre, beh b = .ok) ∧ beh a = .err ∧
        (run_groups beh gs).1 = pre ++ [a] := by
  intro gs
  induction gs with
  | nil => intro h; simp [run_groups] at h
  | cons g grest ih =>
    intro h
    cases hg : (deploy_platform_run beh g).2 with
    | some c =>
      have hc : c = 1 := by
        rcases deploy_platform_run_exit_cases beh g with h2 | h2
        · rw [hg] at h2; exact absurd h2 (by simp)
        · rw [hg] at h2; injection h2
      subst hc
      obtain ⟨pre, a, post, hsplit, hpre, haerr, hatt⟩ :=
        deploy_platform_run_first_fail beh g hg
      refine ⟨pre, a, post ++ grest.join, ?_, hpre, haerr, ?_⟩
      · show g ++ grest.join = pre ++ a :: (post ++ grest.join)
        rw [hsplit]
        simp [List.append_assoc]
      · simp [run_groups, hg, hatt]
    | none =>
      simp only [run_groups, hg] at h
      obtain ⟨pre, a, rest, hsplit, hpre, haerr, hatt⟩ := ih h
      have hgatt := deploy_platform_run_none beh g hg
      refine ⟨g ++ pre, a, rest, ?_, ?_, haerr, ?_⟩
      · show g ++ grest.join = (g ++ pre) ++ a :: rest
        rw [hsplit]
        simp [List.append_assoc]
      · intro b hb
        rcases List.mem_append.mp hb with hbg | hbp
        · by_contra hbcon
          have hberr : beh b = .err := by
            cases hbb : beh b with
            | ok => exact absurd hbb hbcon
            | err => rfl
          have : (deploy_platform_run beh g).2 = some 1 :=
            (deploy_platform_run_err_iff beh g).mpr ⟨b, by rw [hgatt]; exact hbg, hberr⟩
          rw [hg] at this
          exact absurd this (by simp)
        · exact hpre b hbp
      · simp only [run_groups, hg]
        rw [hgatt, hatt]
        simp [List.append_assoc]

/-- C1 amended: a per-action deployment failure aborts the entire run.
When no attempted action fails, the run completes normally and every
action of every dispatched platform group is attempted; the run exits with
code 1 exactly when an attempted action failed; and in that case the
attempted actions are precisely the clean prefix of the full action
sequence up to and including the first failing action, so all later
sibling actions, on the same and on other platforms, are never attempted. -/
theorem claim_C1_per_action_failure_aborts_run (beh : String → DeployOutcome)
    (wf : WorkflowData) (type_order : List String) :
    ((main_run beh wf type_order).2 = none →
      (main_run beh wf type_order).1 = (type_order.map (group_for_type wf)).join)
    ∧ ((main_run beh wf type_order).2 = some 1 ↔
        ∃ a ∈ (main_run beh wf type_order).1, beh a = .err)
    ∧ ((main_run beh wf type_order).2 = some 1 →
        ∃ pre a rest, (type_order.map (group_for_type wf)).join = pre ++ a :: rest ∧
          (∀ b ∈ pre, beh b = .ok) ∧ beh a = .err ∧
          (main_run beh wf type_order).1 = pre ++ [a]) := by
  exact ⟨run_groups_none beh _, run_groups_err_iff beh _, run_groups_first_fail beh _⟩

/-- C1 counterexample: a concrete workflow with one Lambda action a1 and
one OpenWhisk action a2; when a1 fails, the run exits with code 1 having
attempted only a1, and the sibling a2, although due for deployment on the
healthy other platform, is never attempted and appears in no report. -/
theorem claim_C1_counterexample :
    main_run (fun a => if a = "a1" then DeployOutcome.err else DeployOutcome.ok)
        { ComputeServers := [("My_Lambda_Account", { FaaSType := some "Lambda" }),
            ("My_OW_Account", { FaaSType := some "OpenWhisk" })],
          ActionList := [("a1", { FunctionName := "f1", FaaSServer := "My_Lambda_Account" }),
            ("a2", { FunctionName := "f2", FaaSServer := "My_OW_Account" })] }
        ["lambda", "openwhisk"] = (["a1"], some 1)
    ∧ "a2" ∈ group_for_type
        { ComputeServers := [("My_Lambda_Account", { FaaSType := some "Lambda" }),
            ("My_OW_Account", { FaaSType := some "OpenWhisk" })],
          ActionList := [("a1", { FunctionName := "f1", FaaSServer := "My_Lambda_Account" }),
            ("a2", { FunctionName := "f2", FaaSServer := "My_OW_Account" })] }
        "openwhisk"
    ∧ "a2" ∉ (main_run (fun a => if a = "a1" then DeployOutcome.err else DeployOutcome.ok)
        { ComputeServers := [("My_Lambda_Account", { FaaSType := some "Lambda" }),
            ("My_OW_Account", { FaaSType := some "OpenWhisk" })],
          ActionList := [("a1", { FunctionName := "f1", FaaSServer := "My_Lambda_Account" }),
            ("a2", { FunctionName := "f2", FaaSServer := "My_OW_Account" })] }
        ["lambda", "openwhisk"]).1 := by
  refine ⟨rfl, by decide, by decide⟩

/-- Witness for C1 amended: at the concrete two-platform workflow, a clean
run attempts every action of every group. -/
theorem claim_C1_witness :
    (main_run (fun _ => DeployOutcome.ok)
        { ComputeServers := [("My_Lambda_Account", { FaaSType := some "Lambda" }),
            ("My_OW_Account", { FaaSType := some "OpenWhisk" })],
          ActionList := [("a1", { FunctionName := "f1", FaaSServer := "My_Lambda_Account" }),
            ("a2", { FunctionName := "f2", FaaSServer := "My_OW_Account" })] }
        ["lambda", "openwhisk"]).1 =
      ((["lambda", "openwhisk"]).map (group_for_type
        { ComputeServers := [("My_Lambda_Account", { FaaSType := some "Lambda" }),
            ("My_OW_Account", { FaaSType := some "OpenWhisk" })],
          ActionList := [("a1", { FunctionName := "f1", FaaSServer := "My_Lambda_Account" }),
            ("a2", { FunctionName := "f2", FaaSServer := "My_OW_Account" })] })).join := by
  exact (claim_C1_per_action_failure_aborts_run _ _ _).1 rfl

end FaaSr
